import Mathlib

/-!
Verification of the numeric training core of the CIDL-in-Python notebooks.

The development shallowly embeds the training routines of the three
notebooks: the scalar gradient-descent minimizer and MLP trainer of the
unnamed notebook collection, the linear least-squares trainer of
week3/linear_least_square_using_GD.ipynb, and the RBF trainers of
week7/RBF_1D.ipynb (with the weight solve of the 2D variant).

Exact per-example arithmetic (the linear trainer, the scalar minimizer and
the RBF configuration logic) is embedded over the rationals; the layers
that evaluate transcendental functions (sigmoid, Gaussian kernels) are
embedded over the reals.  Randomness (weight draws, shuffles, k-means) and
the external least-squares solver are passed in as explicit parameters, as
the spec treats them as external collaborators.  Fallible numpy indexing is
embedded with Except, the error string naming the Python exception class.
-/

namespace CIDL

/-! ## Scalar gradient-descent minimizer, from minimization_using_GD -/

/-- One pass of the gradient-descent loop of minimization_using_GD: the
state carries old_x and the (append-only) x and polynomial-value history
arrays; each iteration computes new_x = old_x - eta * grad old_x and
appends new_x and pol new_x. -/
def minGDloop (pol grad : ℚ → ℚ) (eta : ℚ) :
    ℕ → ℚ × List ℚ × List ℚ → ℚ × List ℚ × List ℚ
  | 0, st => st
  | k + 1, (old_x, xh, ph) =>
    let new_x := old_x - eta * grad old_x
    minGDloop pol grad eta k (new_x, xh ++ [new_x], ph ++ [pol new_x])

/-- Embedding of minimization_using_GD: histories start at x0 and pol x0,
then num_iters update steps are run unconditionally. Arguments follow the
source order (pol, x0, grad, eta, num_iters). -/
def minimization_using_GD (pol : ℚ → ℚ) (x0 : ℚ) (grad : ℚ → ℚ)
    (eta : ℚ) (num_iters : ℕ) : List ℚ × List ℚ :=
  let st := minGDloop pol grad eta num_iters (x0, [x0], [pol x0])
  (st.2.1, st.2.2)

/-- Specification-side iterate sequence: gdIter k is x_k with
x_0 = x0 and x_(k+1) = x_k - eta * grad x_k. -/
def gdIter (grad : ℚ → ℚ) (eta x0 : ℚ) : ℕ → ℚ
  | 0 => x0
  | k + 1 => gdIter grad eta x0 k - eta * grad (gdIter grad eta x0 k)

/-! ## Linear least-squares trainer, from LLS_by_GD (week3) -/

/-- Dot product of two rational vectors. -/
def dotQ (xs ys : List ℚ) : ℚ := (List.zipWith (fun a b => a * b) xs ys).sum

/-- Inner per-example loop of LLS_by_GD over a list of example indices.
The state is (w, b, E_current_epoch).  Each step reads X[i] (always in
bounds, since the loop runs over range X.length) and y[i] (embedded
fallibly: numpy raises IndexError when i is out of bounds for y), forms
the prediction and residual, accumulates the halved squared residual, and
updates w and b immediately, so the update is visible to the next example
of the same epoch. -/
def LLS_inner (X y : List (List ℚ)) (eta : ℚ) :
    List ℕ → List ℚ × ℚ × ℚ → Except String (List ℚ × ℚ × ℚ)
  | [], st => Except.ok st
  | i :: rest, (w, b, E) =>
    match y.get? i with
    | none => Except.error "IndexError"
    | some yi =>
      let xi := X.getD i []
      let y_pred := dotQ xi w + b
      let residual := y_pred - yi.getD 0 0
      let E2 := E + 1 / 2 * residual ^ 2
      let w2 := List.zipWith (fun wj xj => wj - eta * (residual * xj)) w xi
      let b2 := b - eta * residual
      LLS_inner X y eta rest (w2, b2, E2)

/-- Outer epoch loop of LLS_by_GD: each epoch runs the per-example loop
over indices 0..N-1 in original order and then records the average epoch
error E / N. -/
def LLS_epochs (X y : List (List ℚ)) (eta : ℚ) (N : ℕ) :
    ℕ → List ℚ × ℚ → List ℚ → Except String ((List ℚ × ℚ) × List ℚ)
  | 0, wb, hist => Except.ok (wb, hist)
  | k + 1, (w, b), hist =>
    match LLS_inner X y eta (List.range N) (w, b, 0) with
    | Except.error e => Except.error e
    | Except.ok (w2, b2, E) => LLS_epochs X y eta N k (w2, b2) (hist ++ [E / N])

/-- Embedding of LLS_by_GD: N and D are taken from the shape of X, the
weights start at the zero vector and the bias at 0, and the function
returns the learned (w, b) together with the per-epoch average-error
history.  The (D, 1) numpy column w is represented as a flat list of D
rationals. -/
def LLS_by_GD (X y : List (List ℚ)) (eta : ℚ) (num_iters : ℕ) :
    Except String (List ℚ × ℚ × List ℚ) :=
  let N := X.length
  let D := (X.headD []).length
  match LLS_epochs X y eta N num_iters (List.replicate D 0, 0) [] with
  | Except.error e => Except.error e
  | Except.ok ((w, b), hist) => Except.ok (w, b, hist)

/-- Specification-side stochastic-gradient epoch: a sequential left fold
over the list of (input row, target row) examples, in the order given,
in which each per-example update is applied immediately. -/
def SGD_epoch (eta : ℚ) :
    List (List ℚ × List ℚ) → List ℚ × ℚ × ℚ → List ℚ × ℚ × ℚ
  | [], st => st
  | (x, yrow) :: rest, (w, b, E) =>
    let residual := dotQ x w + b - yrow.getD 0 0
    SGD_epoch eta rest
      (List.zipWith (fun wj xj => wj - eta * (residual * xj)) w x,
        b - eta * residual, E + 1 / 2 * residual ^ 2)

/-- Specification-side multi-epoch run: epochs of SGD_epoch over the zipped
examples, recording the average loss of each epoch. -/
def SGD_run (exs : List (List ℚ × List ℚ)) (eta : ℚ) (N : ℕ) :
    ℕ → List ℚ × ℚ → List ℚ → (List ℚ × ℚ) × List ℚ
  | 0, wb, hist => (wb, hist)
  | k + 1, (w, b), hist =>
    let st := SGD_epoch eta exs (w, b, 0)
    SGD_run exs eta N k (st.1, st.2.1) (hist ++ [st.2.2 / N])

/-! ## Mini-batch index splitting, from np.array_split(np.arange(N), M) -/

/-- Part sizes produced by np.array_split of an n-element array into m
parts: the first n mod m parts get one extra element on top of n / m. -/
def arraySplitSizes (n m : ℕ) : List ℕ :=
  List.replicate (n % m) (n / m + 1) ++ List.replicate (m - n % m) (n / m)

/-- Cut a list into consecutive chunks of the given sizes. -/
def splitBySizes {α : Type} : List ℕ → List α → List (List α)
  | [], _ => []
  | s :: ss, xs => xs.take s :: splitBySizes ss (xs.drop s)

/-- Embedding of np.array_split(xs, m): m consecutive chunks with the
numpy part sizes. -/
def arraySplit {α : Type} (xs : List α) (m : ℕ) : List (List α) :=
  splitBySizes (arraySplitSizes xs.length m) xs

/-! ## MLP core functions over Mathlib matrices, from the unnamed MLP
notebook (MLP_sigmoid, MLP_MSELIN_forward, MLP_MSELIN_backprop) -/

/-- Sigmoid activation, 1 / (1 + exp (-z)). -/
noncomputable def MLP_sigmoid (z : ℝ) : ℝ := 1 / (1 + Real.exp (-z))

/-- Sigmoid derivative evaluated from a pre-activation value rZ:
sigmoid rZ * (1 - sigmoid rZ). -/
noncomputable def MLP_sigmoid_derivative (rZ : ℝ) : ℝ :=
  MLP_sigmoid rZ * (1 - MLP_sigmoid rZ)

/-- Embedding of MLP_MSELIN_forward on a batch of B rows with D features,
H hidden units and O outputs: A0 is the input transposed with a constant
bias row of ones prepended, rZ1 = W1 * A0 is the cached pre-activation,
A1 extends sigmoid rZ1 with a bias row, and the linear output is
rA2 = W2 * A1.  Returns (rA2, A1, A0, rZ1) as in the source. -/
noncomputable def MLP_MSELIN_forward {B D H O : ℕ}
    (P_input : Matrix (Fin B) (Fin D) ℝ)
    (W1 : Matrix (Fin H) (Fin (D + 1)) ℝ)
    (W2 : Matrix (Fin O) (Fin (H + 1)) ℝ) :
    Matrix (Fin O) (Fin B) ℝ × Matrix (Fin (H + 1)) (Fin B) ℝ ×
      Matrix (Fin (D + 1)) (Fin B) ℝ × Matrix (Fin H) (Fin B) ℝ :=
  let A0 : Matrix (Fin (D + 1)) (Fin B) ℝ :=
    Matrix.of (Fin.cons (fun _ => 1) (fun i j => P_input j i))
  let rZ1 := W1 * A0
  let rA1 := rZ1.map MLP_sigmoid
  let A1 : Matrix (Fin (H + 1)) (Fin B) ℝ :=
    Matrix.of (Fin.cons (fun _ => 1) rA1)
  let rA2 := W2 * A1
  (rA2, A1, A0, rZ1)

/-- Embedding of MLP_MSELIN_backprop: dL_dZ2 = rA2 - Y_true,
dL_dW2 = dL_dZ2 * A1^T, dL_dA1 = W2^T * dL_dZ2, the bias row (row 0) of
dL_dA1 is dropped and the rest multiplied entrywise with the sigmoid
derivative of the cached pre-activation rZ1, and dL_dW1 = dL_drZ1 * A0^T.
Returns (dL_dW1, dL_dW2). -/
noncomputable def MLP_MSELIN_backprop {B D H O : ℕ}
    (rA2 : Matrix (Fin O) (Fin B) ℝ)
    (A1 : Matrix (Fin (H + 1)) (Fin B) ℝ)
    (A0 : Matrix (Fin (D + 1)) (Fin B) ℝ)
    (rZ1 : Matrix (Fin H) (Fin B) ℝ)
    (Y_true : Matrix (Fin O) (Fin B) ℝ)
    (W1 : Matrix (Fin H) (Fin (D + 1)) ℝ)
    (W2 : Matrix (Fin O) (Fin (H + 1)) ℝ) :
    Matrix (Fin H) (Fin (D + 1)) ℝ × Matrix (Fin O) (Fin (H + 1)) ℝ :=
  let dL_dZ2 := rA2 - Y_true
  let dL_dW2 := dL_dZ2 * A1.transpose
  let dL_dA1 := W2.transpose * dL_dZ2
  let sigma_prime_of_rZ1 := rZ1.map MLP_sigmoid_derivative
  let dL_drZ1 : Matrix (Fin H) (Fin B) ℝ :=
    Matrix.of (fun i j => dL_dA1 i.succ j * sigma_prime_of_rZ1 i j)
  let dL_dW1 := dL_drZ1 * A0.transpose
  (dL_dW1, dL_dW2)

/-! ## MLP training loop over list matrices, from MLP_MSELIN_train

The training loop works with runtime-sized minibatches, so it is embedded
over lists of rows.  The random draws of the source (the uniform weight
initialization of MLP_initialize_weights and the per-epoch
np.random.permutation) are supplied as explicit parameters. -/

/-- Dot product of two real vectors. -/
noncomputable def dotR (xs ys : List ℝ) : ℝ :=
  (List.zipWith (fun a b => a * b) xs ys).sum

/-- Rectangular transpose of a list matrix (column count read off the
first row, as for a numpy array). -/
def transposeL (A : List (List ℝ)) : List (List ℝ) :=
  (List.range (A.headD []).length).map (fun j => A.map (fun row => row.getD j 0))

/-- Matrix product of list matrices. -/
noncomputable def matmulL (A B : List (List ℝ)) : List (List ℝ) :=
  A.map (fun row => (transposeL B).map (fun col => dotR row col))

/-- Entrywise map over a list matrix. -/
def mapL (f : ℝ → ℝ) (A : List (List ℝ)) : List (List ℝ) :=
  A.map (List.map f)

/-- Entrywise difference of two list matrices. -/
noncomputable def subL (A B : List (List ℝ)) : List (List ℝ) :=
  List.zipWith (List.zipWith (fun a b => a - b)) A B

/-- Entrywise product of two list matrices. -/
noncomputable def hadamardL (A B : List (List ℝ)) : List (List ℝ) :=
  List.zipWith (List.zipWith (fun a b => a * b)) A B

/-- Scalar multiple of a list matrix. -/
noncomputable def smulL (c : ℝ) (A : List (List ℝ)) : List (List ℝ) :=
  mapL (fun a => c * a) A

/-- Sum of all entries of a list matrix. -/
noncomputable def sumL (A : List (List ℝ)) : ℝ := (A.map List.sum).sum

/-- List-matrix version of MLP_MSELIN_forward, used by the training loop
where minibatch sizes vary at runtime. -/
noncomputable def MLP_MSELIN_forwardL (P_input W1 W2 : List (List ℝ)) :
    List (List ℝ) × List (List ℝ) × List (List ℝ) × List (List ℝ) :=
  let batch_size := P_input.length
  let A0 := List.replicate batch_size (1 : ℝ) :: transposeL P_input
  let rZ1 := matmulL W1 A0
  let rA1 := mapL MLP_sigmoid rZ1
  let A1 := List.replicate batch_size (1 : ℝ) :: rA1
  let rA2 := matmulL W2 A1
  (rA2, A1, A0, rZ1)

/-- Embedding of MLP_MSE_cost: sum of squared differences divided by
twice the batch size (the column count of y_true). -/
noncomputable def MLP_MSE_cost (y_true y_pred : List (List ℝ)) : ℝ :=
  sumL (mapL (fun a => a ^ 2) (subL y_true y_pred)) /
    (2 * ((y_true.headD []).length : ℝ))

/-- List-matrix version of MLP_MSELIN_backprop. -/
noncomputable def MLP_MSELIN_backpropL (rA2 A1 A0 rZ1 Y_true W1 W2 : List (List ℝ)) :
    List (List ℝ) × List (List ℝ) :=
  let dL_dZ2 := subL rA2 Y_true
  let dL_dW2 := matmulL dL_dZ2 (transposeL A1)
  let dL_dA1 := matmulL (transposeL W2) dL_dZ2
  let sigma_prime_of_rZ1 := mapL MLP_sigmoid_derivative rZ1
  let dL_drZ1 := hadamardL (dL_dA1.drop 1) sigma_prime_of_rZ1
  let dL_dW1 := matmulL dL_drZ1 (transposeL A0)
  (dL_dW1, dL_dW2)

/-- The model dictionary passed to MLP_MSELIN_train: hyperparameter keys
plus the keys the trainer itself stores (cost_history, W1, W2), which are
absent (none) before training. -/
structure MLPModel where
  n_output : ℕ
  n_features : ℕ
  n_hidden : ℕ
  epochs : ℕ
  eta : ℝ
  minibatches : ℕ
  cost_history : Option (List ℝ)
  W1 : Option (List (List ℝ))
  W2 : Option (List (List ℝ))

/-- Body of one minibatch step of MLP_MSELIN_train: select the minibatch
rows, forward pass, record the cost, backward pass, and immediately apply
the scaled weight updates. -/
noncomputable def MLP_minibatchStep (eta : ℝ) (P_shuffled y_shuffled : List (List ℝ))
    (st : List ℝ × List (List ℝ) × List (List ℝ)) (idx : List ℕ) :
    List ℝ × List (List ℝ) × List (List ℝ) :=
  let hist := st.1
  let W1 := st.2.1
  let W2 := st.2.2
  let P_mini_batch := idx.map (fun i => P_shuffled.getD i [])
  let y_mini_batch := transposeL (idx.map (fun i => y_shuffled.getD i []))
  let f := MLP_MSELIN_forwardL P_mini_batch W1 W2
  let cost := MLP_MSE_cost y_mini_batch f.1
  let grads := MLP_MSELIN_backpropL f.1 f.2.1 f.2.2.1 f.2.2.2 y_mini_batch W1 W2
  (hist ++ [cost], subL W1 (smulL eta grads.1), subL W2 (smulL eta grads.2))

/-- One epoch of MLP_MSELIN_train: shuffle inputs and targets with the
same permutation, split the index range into minibatches with
np.array_split, and fold the minibatch step over the chunks in order. -/
noncomputable def MLP_epoch (eta : ℝ) (minibatches : ℕ)
    (P_train y_train : List (List ℝ)) (shuffled_indices : List ℕ)
    (st : List ℝ × List (List ℝ) × List (List ℝ)) :
    List ℝ × List (List ℝ) × List (List ℝ) :=
  let num_observations := P_train.length
  let P_shuffled := shuffled_indices.map (fun i => P_train.getD i [])
  let y_shuffled := shuffled_indices.map (fun i => y_train.getD i [])
  let mini_batch_indices := arraySplit (List.range num_observations) minibatches
  mini_batch_indices.foldl (MLP_minibatchStep eta P_shuffled y_shuffled) st

/-- Epoch recursion of MLP_MSELIN_train: e counts the current epoch (the
source iterates e = 1 .. epochs), k the number of epochs still to run. -/
noncomputable def MLP_trainLoop (eta : ℝ) (minibatches : ℕ)
    (P_train y_train : List (List ℝ)) (perms : ℕ → List ℕ) :
    ℕ → ℕ → List ℝ × List (List ℝ) × List (List ℝ) →
      List ℝ × List (List ℝ) × List (List ℝ)
  | 0, _, st => st
  | k + 1, e, st =>
    MLP_trainLoop eta minibatches P_train y_train perms k (e + 1)
      (MLP_epoch eta minibatches P_train y_train (perms e) st)

/-- Embedding of MLP_MSELIN_train: the freshly drawn initial weights and
the per-epoch shuffling permutations are passed in explicitly (the source
draws them from np.random).  The trainer resets cost_history to an empty
log, runs the epoch loop, and stores the final weights and the cost log
back into the model dictionary, returning (model, W1, W2). -/
noncomputable def MLP_MSELIN_train (P_train y_train : List (List ℝ))
    (model : MLPModel) (initW1 initW2 : List (List ℝ)) (perms : ℕ → List ℕ) :
    MLPModel × List (List ℝ) × List (List ℝ) :=
  let st := MLP_trainLoop model.eta model.minibatches P_train y_train perms
    model.epochs 1 ([], initW1, initW2)
  ({model with cost_history := some st.1, W1 := some st.2.1, W2 := some st.2.2},
    st.2.1, st.2.2)

/-! ## RBF configuration and center initialization, from RBF_1D.ipynb -/

/-- The model dictionary of the RBF notebooks: hyperparameter keys plus
the keys the trainer itself stores (W1, W2), absent before training. -/
structure RBFModel where
  n_output : ℕ
  n_features : ℕ
  n_hidden : ℕ
  epsilon : ℚ
  centres_generation_method : String
  W1 : Option (List (List ℚ))
  W2 : Option (List (List ℚ))
deriving DecidableEq

/-- Column count of a list matrix, as numpy shape index 1. -/
def shape1 (X : List (List ℚ)) : ℕ := (X.headD []).length

/-- Embedding of RBF_initialize_centres.  The random permutation drawn by
np.random.permutation and the external k-means clusterer are passed in as
parameters.  Under the random policy the first n_hidden permuted training
rows become centers; under clustering the k-means centroids do; under the
debug policy a mismatched n_hidden is forced to 3 (with a printed warning
in the source) and fixed literal centers are used for input dimension 1
or 2, any other dimension raising ValueError; any unrecognized policy
name raises ValueError.  Python exceptions are embedded as Except.error
with the exception class and message. -/
def RBF_initialize_centres (model : RBFModel) (Xtrain ytrain : List (List ℚ))
    (perm : List ℕ) (kmeans : ℕ → List (List ℚ) → List (List ℚ)) :
    Except String (RBFModel × List (List ℚ)) :=
  let method := model.centres_generation_method
  let n_hidden := model.n_hidden
  if method = "random" then
    let idx := perm
    let W1 := (idx.take n_hidden).map (fun i => Xtrain.getD i [])
    Except.ok ({model with W1 := some W1}, W1)
  else if method = "clustering" then
    let W1 := kmeans n_hidden Xtrain
    Except.ok ({model with W1 := some W1}, W1)
  else if method = "debug" then
    let model := if n_hidden ≠ 3 then {model with n_hidden := 3} else model
    if shape1 Xtrain = 1 then
      let W1 : List (List ℚ) := [[-8], [-1], [7]]
      Except.ok ({model with W1 := some W1}, W1)
    else if shape1 Xtrain = 2 then
      let W1 : List (List ℚ) := [[-8, -8], [-1, -1], [7, 7]]
      Except.ok ({model with W1 := some W1}, W1)
    else
      Except.error "ValueError: Unsupported input dimension for debug mode"
  else
    Except.error "ValueError: Unrecognized center generation method"

/-! ## RBF forward pass and offline weight solve over Mathlib matrices,
from RBF_extend, RBF_forward, RBF_train_offline and RBF_predict of
RBF_1D.ipynb -/

/-- Embedding of RBF_extend: prepend a constant row of ones. -/
noncomputable def RBF_extend {H N : ℕ} (X : Matrix (Fin H) (Fin N) ℝ) :
    Matrix (Fin (H + 1)) (Fin N) ℝ :=
  Matrix.of (Fin.cons (fun _ => 1) X)

/-- Embedding of RBF_forward on N patterns with D features and H centers:
rZ1 holds the Euclidean distances between patterns and centers, rA1 the
Gaussian activations exp (-(epsilon^2 * rZ1^2)), A1 the bias-extended
activations and the output is the linear combination W2 * A1.  Returns
(rA2, A1). -/
noncomputable def RBF_forward {N D H : ℕ}
    (P : Matrix (Fin N) (Fin D) ℝ) (W1 : Matrix (Fin H) (Fin D) ℝ)
    (W2 : Matrix (Fin 1) (Fin (H + 1)) ℝ) (epsilon : ℝ) :
    Matrix (Fin 1) (Fin N) ℝ × Matrix (Fin (H + 1)) (Fin N) ℝ :=
  let rA0 := P.transpose
  let rZ1 : Matrix (Fin H) (Fin N) ℝ :=
    Matrix.of (fun i j => Real.sqrt (∑ k, (W1 i k - rA0 k j) ^ 2))
  let rA1 : Matrix (Fin H) (Fin N) ℝ :=
    Matrix.of (fun i j => Real.exp (-(epsilon ^ 2 * (rZ1 i j) ^ 2)))
  let A1 := RBF_extend rA1
  let rZ2 := W2 * A1
  (rZ2, A1)

/-- Phase 2 of RBF_train_offline, with the centers W1 already initialized:
a forward pass with dummy unit output weights yields the extended hidden
activations A1, and the output weights are one call of the external
least-squares solver on A1^T and y, reshaped to a 1 x (H+1) row.  The
solver (np.linalg.lstsq in the source, np.linalg.pinv in the 2D variant)
is an external numeric primitive and is passed in as a parameter. -/
noncomputable def RBF_train_offline_solve {N D H : ℕ}
    (lstsq : Matrix (Fin N) (Fin (H + 1)) ℝ → (Fin N → ℝ) → (Fin (H + 1) → ℝ))
    (X : Matrix (Fin N) (Fin D) ℝ) (W1 : Matrix (Fin H) (Fin D) ℝ)
    (epsilon : ℝ) (y : Fin N → ℝ) : Matrix (Fin 1) (Fin (H + 1)) ℝ :=
  let A1 := (RBF_forward X W1 (Matrix.of (fun _ _ => 1)) epsilon).2
  let W2 := lstsq A1.transpose y
  Matrix.of (fun _ i => W2 i)

/-- Embedding of RBF_predict: a forward pass with the stored centers and
solved weights; only the network output is returned. -/
noncomputable def RBF_predict {N D H : ℕ}
    (X : Matrix (Fin N) (Fin D) ℝ) (W1 : Matrix (Fin H) (Fin D) ℝ)
    (W2 : Matrix (Fin 1) (Fin (H + 1)) ℝ) (epsilon : ℝ) :
    Matrix (Fin 1) (Fin N) ℝ :=
  (RBF_forward X W1 W2 epsilon).1

/-- Specification-side extended hidden activation matrix H_ext: row j has
a leading bias 1 followed by the Gaussian kernel values
exp (-(epsilon^2 * squared Euclidean distance from pattern j to
center i)). -/
noncomputable def RBF_Hext {N D H : ℕ}
    (X : Matrix (Fin N) (Fin D) ℝ) (W1 : Matrix (Fin H) (Fin D) ℝ)
    (epsilon : ℝ) : Matrix (Fin N) (Fin (H + 1)) ℝ :=
  Matrix.of (fun j i =>
    Fin.cases 1
      (fun i2 => Real.exp (-(epsilon ^ 2 * ∑ k, (X j k - W1 i2 k) ^ 2))) i)

/-! ## Heap model for the frame claims

The claims about non-mutation of caller arrays are stated against a store
of numpy arrays: a heap is a list of 2D arrays, a variable holding an
array is an address into it.  Reading an array is getD, in-place element
assignment is a store, and creating a fresh array is an allocation at the
end.  The trainers read the arrays X and y of the caller through the heap;
the only in-place numpy store any of the three trainers performs is
avg_E_at_each_iteration[k] = ... in LLS_by_GD, which targets the array
the trainer itself allocates.  Fancy indexing (P_train[shuffled, :]) and
arithmetic produce fresh arrays, so they appear as pure values. -/

/-- A 2D numpy array over the reals. -/
abbrev NpArr := List (List ℝ)

/-- A store of arrays; addresses are positions. -/
abbrev Heap := List NpArr

/-- Read the array at an address. -/
def heapRead (h : Heap) (a : ℕ) : NpArr := h.getD a []

/-- Overwrite the array at an address (in-place numpy assignment). -/
def heapWrite (h : Heap) (a : ℕ) (v : NpArr) : Heap := h.set a v

/-- Allocate a fresh array, returning the extended heap and its address. -/
def heapAlloc (h : Heap) (v : NpArr) : Heap × ℕ := (h ++ [v], h.length)

/-- Per-example loop of LLS_by_GD reading X and y through the heap; the
state is (w, b, E_current_epoch) and no heap cell is written. -/
noncomputable def LLS_inner_heap (eta : ℝ) (aX aY : ℕ) (h : Heap) :
    List ℕ → List ℝ × ℝ × ℝ → List ℝ × ℝ × ℝ
  | [], st => st
  | i :: rest, (w, b, E) =>
    let X := heapRead h aX
    let y := heapRead h aY
    let xi := X.getD i []
    let residual := dotR xi w + b - (y.getD i []).getD 0 0
    let w2 := List.zipWith (fun wj xj => wj - eta * (residual * xj)) w xi
    LLS_inner_heap eta aX aY h rest
      (w2, b - eta * residual, E + 1 / 2 * residual ^ 2)

/-- Epoch loop of LLS_by_GD over the heap: after each epoch the average
epoch error is stored in place into the history array at address aE (the
source line avg_E_at_each_iteration[k] = E_current_epoch / N); k counts
the remaining epochs and T the total, so the current epoch index is
T - k. -/
noncomputable def LLS_epochs_heap (eta : ℝ) (aX aY aE : ℕ) (N T : ℕ) :
    ℕ → Heap → List ℝ × ℝ → Heap × (List ℝ × ℝ)
  | 0, h, wb => (h, wb)
  | k + 1, h, wb =>
    let st := LLS_inner_heap eta aX aY h (List.range N) (wb.1, wb.2, 0)
    let avg := heapRead h aE
    let row := (avg.headD []).set (T - (k + 1)) (st.2.2 / (N : ℝ))
    let h2 := heapWrite h aE [row]
    LLS_epochs_heap eta aX aY aE N T k h2 (st.1, st.2.1)

/-- Heap-level embedding of LLS_by_GD: reads the caller arrays at aX and
aY, allocates the zero-filled history array, and runs the epoch loop.
Returns the final heap, the learned (w, b) and the address of the history
array. -/
noncomputable def LLS_by_GD_heap (h0 : Heap) (aX aY : ℕ) (eta : ℝ) (T : ℕ) :
    Heap × (List ℝ × ℝ) × ℕ :=
  let X := heapRead h0 aX
  let N := X.length
  let D := (X.headD []).length
  let al := heapAlloc h0 [List.replicate T 0]
  let res := LLS_epochs_heap eta aX aY al.2 N T T al.1 (List.replicate D 0, 0)
  (res.1, res.2, al.2)

/-- Heap-level embedding of MLP_MSELIN_train: the trainer reads P_train
and y_train from the heap and performs no in-place numpy store at all
(its numpy operations are fancy-indexing selections and arithmetic, which
allocate fresh arrays; the appends go to a Python list inside the model
dictionary), so its action on the array store is the identity. -/
noncomputable def MLP_MSELIN_train_heap (h : Heap) (aP aY : ℕ)
    (model : MLPModel) (initW1 initW2 : List (List ℝ)) (perms : ℕ → List ℕ) :
    Heap × (MLPModel × List (List ℝ) × List (List ℝ)) :=
  (h, MLP_MSELIN_train (heapRead h aP) (heapRead h aY) model initW1 initW2 perms)

/-- Gaussian design matrix of the 2D RBF_train_offline (part_000): entry
(j, i) of the unextended block is the kernel of training row j against
center i, and a leading column of ones is stacked on (np.column_stack). -/
noncomputable def RBF_design2D (X W1 : List (List ℝ)) (epsilon : ℝ) : List (List ℝ) :=
  X.map (fun xrow =>
    1 :: W1.map (fun c =>
      Real.exp (-(((Real.sqrt ((List.zipWith (fun a b => (a - b) ^ 2) xrow c).sum)) * epsilon) ^ 2))))

/-- Heap-level embedding of the 2D RBF_train_offline weight solve with
given centers W1: X and y are read from the heap, the design matrix and
the single least-squares solve (np.linalg.pinv @ y, passed in as the
external solver) allocate fresh arrays, and no heap cell is written. -/
noncomputable def RBF_train_offline_heap (h : Heap) (aX aY : ℕ)
    (W1 : List (List ℝ)) (epsilon : ℝ)
    (lstsqL : List (List ℝ) → List ℝ → List ℝ) :
    Heap × List (List ℝ) × List ℝ :=
  let X := heapRead h aX
  let y := heapRead h aY
  let Hd := RBF_design2D X W1 epsilon
  let W2 := lstsqL Hd (y.map (fun r => r.getD 0 0))
  (h, Hd, W2)

end CIDL

namespace CIDL

/-! ## Theorems -/

/-- Helper: the minimizer loop extends given histories by the mapped
iterate sequence. -/
theorem minGDloop_eq (pol grad : ℚ → ℚ) (eta : ℚ) :
    ∀ (k : ℕ) (x : ℚ) (xh ph : List ℚ),
      minGDloop pol grad eta k (x, xh, ph) =
        (gdIter grad eta x k,
          xh ++ (List.range k).map (fun j => gdIter grad eta x (j + 1)),
          ph ++ (List.range k).map (fun j => pol (gdIter grad eta x (j + 1)))) := by
  intro k
  induction k with
  | zero => intro x xh ph; simp [minGDloop, gdIter]
  | succ n ih =>
    intro x xh ph
    have hiter : ∀ j : ℕ,
        gdIter grad eta (x - eta * grad x) j = gdIter grad eta x (j + 1) := by
      intro j
      induction j with
      | zero => simp [gdIter]
      | succ m ihm => simp only [gdIter, ihm]
    have hrange : ∀ f : ℕ → ℚ,
        (List.range (n + 1)).map f = f 0 :: (List.range n).map (fun j => f (j + 1)) := by
      intro f
      rw [List.range_succ_eq_map]
      simp [Function.comp]
    simp only [minGDloop]
    rw [ih]
    simp only [hiter, Prod.mk.injEq]
    refine ⟨trivial, ?_, ?_⟩
    · rw [hrange (fun j => gdIter grad eta x (j + 1))]
      simp [gdIter, List.append_assoc]
    · rw [hrange (fun j => pol (gdIter grad eta x (j + 1)))]
      simp [gdIter, List.append_assoc]

/-- Helper: the index-driven per-example loop of LLS_by_GD agrees with the
sequential fold over the zipped examples, starting at any offset. -/
theorem LLS_inner_eq_SGD_epoch (y : List (List ℚ)) (eta : ℚ) :
    ∀ (Xs Ys X : List (List ℚ)) (offset : ℕ) (st : List ℚ × ℚ × ℚ),
      X.drop offset = Xs → y.drop offset = Ys → Xs.length ≤ Ys.length →
      LLS_inner X y eta (List.range' offset Xs.length) st =
        Except.ok (SGD_epoch eta (Xs.zip Ys) st) := by
  intro Xs
  induction Xs with
  | nil =>
    intro Ys X offset st hX hY hlen
    simp [LLS_inner, SGD_epoch]
  | cons x Xt ih =>
    intro Ys X offset st hX hY hlen
    obtain ⟨w, b, E⟩ := st
    cases Ys with
    | nil => simp at hlen
    | cons yh Yt =>
      have hyget : y.get? offset = some yh := by
        have h0 : (y.drop offset).get? 0 = some yh := by rw [hY]; rfl
        rwa [List.get?_drop, Nat.add_zero] at h0
      have hXget : X.getD offset [] = x := by
        have h0 : (X.drop offset).get? 0 = some x := by rw [hX]; rfl
        rw [List.get?_drop, Nat.add_zero, List.get?_eq_getElem?] at h0
        simp [List.getD_eq_getElem?_getD, h0]
      have hXdrop : X.drop (offset + 1) = Xt := by
        have hd := List.drop_drop 1 offset X
        rw [hX] at hd
        simpa using hd.symm
      have hYdrop : y.drop (offset + 1) = Yt := by
        have hd := List.drop_drop 1 offset y
        rw [hY] at hd
        simpa using hd.symm
      rw [List.length_cons, List.range'_succ]
      simp only [LLS_inner, hyget, hXget]
      rw [ih Yt X (offset + 1) _ hXdrop hYdrop (Nat.le_of_succ_le_succ hlen)]
      simp [SGD_epoch, List.zip]

/-- Helper: the epoch loop of LLS_by_GD agrees with the multi-epoch
specification run when the target list covers the inputs. -/
theorem LLS_epochs_eq_SGD_run (X y : List (List ℚ)) (eta : ℚ)
    (hlen : X.length ≤ y.length) :
    ∀ (k : ℕ) (wb : List ℚ × ℚ) (hist : List ℚ),
      LLS_epochs X y eta X.length k wb hist =
        Except.ok (SGD_run (X.zip y) eta X.length k wb hist) := by
  have hzip : (X.zip y).length = X.length := by
    rw [List.length_zip]; omega
  intro k
  induction k with
  | zero => intro wb hist; simp [LLS_epochs, SGD_run]
  | succ n ih =>
    intro wb hist
    obtain ⟨w, b⟩ := wb
    have hinner := LLS_inner_eq_SGD_epoch y eta X y X 0 (w, b, 0) rfl rfl hlen
    rw [← List.range_eq_range'] at hinner
    simp only [LLS_epochs, hinner]
    rw [ih]
    simp [SGD_run]

/-- C2: LLS_by_GD initializes w = 0, b = 0 and applies every per-example
update immediately, visible to the following examples of the same epoch
in original example order (it refines the sequential fold SGD_run over
the zipped examples), and on X = [[1], [2]], y = [[1], [2]], eta = 1/10,
one epoch, it returns exactly w = [11/25] = [0.44] and b = 27/100 = 0.27
(the average epoch loss recorded is 389/400). -/
theorem LLS_by_GD_per_example_trace :
    (∀ (X y : List (List ℚ)) (eta : ℚ) (T : ℕ), X.length ≤ y.length →
        LLS_by_GD X y eta T =
          Except.ok
            ((SGD_run (X.zip y) eta X.length T
                (List.replicate (X.headD []).length 0, 0) []).1.1,
              (SGD_run (X.zip y) eta X.length T
                (List.replicate (X.headD []).length 0, 0) []).1.2,
              (SGD_run (X.zip y) eta X.length T
                (List.replicate (X.headD []).length 0, 0) []).2)) ∧
      LLS_by_GD [[1], [2]] [[1], [2]] (1 / 10) 1 =
        Except.ok ([11 / 25], 27 / 100, [389 / 400]) := by
  constructor
  · intro X y eta T hlen
    have h := LLS_epochs_eq_SGD_run X y eta hlen T
      (List.replicate (X.headD []).length 0, 0) []
    simp only [LLS_by_GD]
    rw [h]
  · norm_num [LLS_by_GD, LLS_epochs, LLS_inner, dotQ, List.range, List.range.loop]

/-- Witness for C2 at a concrete one-example input. -/
theorem LLS_by_GD_per_example_trace_witness :
    LLS_by_GD [[2]] [[3]] 1 1 =
      Except.ok
        ((SGD_run ([[2]].zip [[3]]) 1 [[2]].length 1
            (List.replicate ([[2]].headD []).length 0, 0) []).1.1,
          (SGD_run ([[2]].zip [[3]]) 1 [[2]].length 1
            (List.replicate ([[2]].headD []).length 0, 0) []).1.2,
          (SGD_run ([[2]].zip [[3]]) 1 [[2]].length 1
            (List.replicate ([[2]].headD []).length 0, 0) []).2) :=
  LLS_by_GD_per_example_trace.1 [[2]] [[3]] 1 1 (by decide)

/-- Counterexample to C4: with two input rows and a single target row,
LLS_by_GD does not abort with a ShapeMismatchError before numeric work; no
such check exists in any trainer, and the run instead dies with an
IndexError inside the per-example loop. -/
theorem LLS_by_GD_no_shape_check_counterexample :
    ¬ LLS_by_GD [[1], [2]] [[1]] (1 / 10) 1 = Except.error "ShapeMismatchError" := by
  norm_num [LLS_by_GD, LLS_epochs, LLS_inner, dotQ, List.range, List.range.loop]
  decide

/-- C4 (amended): the trainers perform no eager shape validation.  When
the target vector has fewer rows than the input matrix, LLS_by_GD fails
with an IndexError raised from inside the per-example loop, after numeric
work on the earlier examples has already happened: on X = [[1], [2]],
y = [[1]], the loop first processes example 0 (updating w and b to 1/10)
and only then fails at example 1.  When the target vector has more rows
than the input matrix, training silently succeeds using the first N
targets. -/
theorem LLS_by_GD_shape_mismatch_behaviour :
    LLS_by_GD [[1], [2]] [[1]] (1 / 10) 1 = Except.error "IndexError" ∧
      LLS_inner [[1], [2]] [[1]] (1 / 10) [0] ([0], 0, 0) =
        Except.ok ([1 / 10], 1 / 10, 1 / 2) ∧
      LLS_inner [[1], [2]] [[1]] (1 / 10) [0, 1] ([0], 0, 0) =
        Except.error "IndexError" ∧
      LLS_by_GD [[1]] [[1], [5]] (1 / 10) 1 =
        Except.ok ([1 / 10], 1 / 10, [1 / 2]) := by
  refine ⟨?_, ?_, ?_, ?_⟩ <;>
    norm_num [LLS_by_GD, LLS_epochs, LLS_inner, dotQ, List.range, List.range.loop]

/-- Counterexample to C1: under the debug policy with n_hidden = 5 and a
1-dimensional input, center initialization does not fail at all; it
returns successfully (after silently forcing n_hidden to 3), so training
does not raise a ConfigurationError whenever H differs from 3. -/
theorem RBF_debug_wrong_H_counterexample :
    RBF_initialize_centres ⟨1, 1, 5, 1, "debug", none, none⟩ [[0]] [[0]] []
        (fun _ _ => []) =
      Except.ok (⟨1, 1, 3, 1, "debug", some [[-8], [-1], [7]], none⟩,
        [[-8], [-1], [7]]) := by
  rfl

/-- C1 (amended): under the debug policy an input dimension other than 1
or 2 raises ValueError (the ConfigurationError kind of the spec), a hidden-unit
count different from 3 is not an error but is silently forced to 3 (the
initialization succeeds with the fixed 1D centers), and any policy name
other than random, clustering or debug raises ValueError. -/
theorem RBF_initialize_centres_config_errors :
    ∀ (m : RBFModel) (X y : List (List ℚ)) (p : List ℕ)
      (km : ℕ → List (List ℚ) → List (List ℚ)),
      (m.centres_generation_method = "debug" → shape1 X ≠ 1 → shape1 X ≠ 2 →
        RBF_initialize_centres m X y p km =
          Except.error "ValueError: Unsupported input dimension for debug mode") ∧
      (m.centres_generation_method = "debug" → m.n_hidden ≠ 3 → shape1 X = 1 →
        RBF_initialize_centres m X y p km =
          Except.ok ({m with n_hidden := 3, W1 := some [[-8], [-1], [7]]},
            [[-8], [-1], [7]])) ∧
      (m.centres_generation_method ≠ "random" →
        m.centres_generation_method ≠ "clustering" →
        m.centres_generation_method ≠ "debug" →
        RBF_initialize_centres m X y p km =
          Except.error "ValueError: Unrecognized center generation method") := by
  intro m X y p km
  refine ⟨?_, ?_, ?_⟩
  · intro hm hs1 hs2
    simp [RBF_initialize_centres, hm, hs1, hs2]
  · intro hm hh hs1
    simp [RBF_initialize_centres, hm, hh, hs1]
  · intro h1 h2 h3
    simp [RBF_initialize_centres, h1, h2, h3]

/-- Witness for C1 at a concrete unrecognized policy name. -/
theorem RBF_initialize_centres_config_errors_witness :
    RBF_initialize_centres ⟨1, 1, 3, 1, "kmeanz", none, none⟩ [[0]] [[0]] []
        (fun _ _ => []) =
      Except.error "ValueError: Unrecognized center generation method" :=
  (RBF_initialize_centres_config_errors ⟨1, 1, 3, 1, "kmeanz", none, none⟩
      [[0]] [[0]] [] (fun _ _ => [])).2.2 (by decide) (by decide) (by decide)

/-- Counterexample to C3: the configuration record is not read-only during
training; under the debug policy with n_hidden = 7 the RBF center
initializer overwrites the n_hidden hyperparameter with 3 (and stores the
W1 result key), so the structure holds different hyperparameter values
after the call. -/
theorem RBF_debug_mutates_model_counterexample :
    RBF_initialize_centres ⟨1, 2, 7, 2, "debug", none, none⟩
        [[0, 0], [1, 1]] [[0], [1]] [] (fun _ _ => []) =
      Except.ok (⟨1, 2, 3, 2, "debug", some [[-8, -8], [-1, -1], [7, 7]], none⟩,
        [[-8, -8], [-1, -1], [7, 7]]) ∧ (7 : ℕ) ≠ 3 := by
  exact ⟨rfl, by decide⟩

/-- C3 (amended): the trainers never change the hyperparameter fields of
the configuration they are given, except that the RBF debug policy with a
mismatched hidden-unit count overwrites n_hidden with 3; they do add or
overwrite the result keys (cost_history, W1, W2) on the same record.  The
MLP trainer preserves every hyperparameter unconditionally, and the RBF
center initializer preserves them under the random and clustering
policies and under debug with n_hidden = 3. -/
theorem trainers_preserve_hyperparameters :
    (∀ (P y : List (List ℝ)) (m : MLPModel) (iW1 iW2 : List (List ℝ))
        (perms : ℕ → List ℕ),
        (MLP_MSELIN_train P y m iW1 iW2 perms).1.n_output = m.n_output ∧
        (MLP_MSELIN_train P y m iW1 iW2 perms).1.n_features = m.n_features ∧
        (MLP_MSELIN_train P y m iW1 iW2 perms).1.n_hidden = m.n_hidden ∧
        (MLP_MSELIN_train P y m iW1 iW2 perms).1.epochs = m.epochs ∧
        (MLP_MSELIN_train P y m iW1 iW2 perms).1.eta = m.eta ∧
        (MLP_MSELIN_train P y m iW1 iW2 perms).1.minibatches = m.minibatches) ∧
      (∀ (m : RBFModel) (X y : List (List ℚ)) (p : List ℕ)
          (km : ℕ → List (List ℚ) → List (List ℚ))
          (r : RBFModel × List (List ℚ)),
        (m.centres_generation_method = "random" ∨
          m.centres_generation_method = "clustering" ∨
          (m.centres_generation_method = "debug" ∧ m.n_hidden = 3)) →
        RBF_initialize_centres m X y p km = Except.ok r →
        r.1.n_output = m.n_output ∧ r.1.n_features = m.n_features ∧
          r.1.n_hidden = m.n_hidden ∧ r.1.epsilon = m.epsilon ∧
          r.1.centres_generation_method = m.centres_generation_method) := by
  constructor
  · intro P y m iW1 iW2 perms
    refine ⟨?_, ?_, ?_, ?_, ?_, ?_⟩ <;> simp [MLP_MSELIN_train]
  · intro m X y p km r hpol hok
    rcases hpol with h | h | ⟨h, h3⟩
    · simp [RBF_initialize_centres, h] at hok
      subst hok
      simp [h]
    · simp [RBF_initialize_centres, h] at hok
      subst hok
      simp [h]
    · by_cases hs1 : shape1 X = 1
      · simp [RBF_initialize_centres, h, h3, hs1] at hok
        subst hok
        simp [h, h3]
      · by_cases hs2 : shape1 X = 2
        · simp [RBF_initialize_centres, h, h3, hs1, hs2] at hok
          subst hok
          simp [h, h3]
        · simp [RBF_initialize_centres, h, h3, hs1, hs2] at hok

/-- Witness for C3 at a concrete clustering-policy model. -/
theorem trainers_preserve_hyperparameters_witness :
    ((⟨1, 1, 2, 1, "clustering", some [[4], [6]], none⟩ : RBFModel).n_hidden =
        (⟨1, 1, 2, 1, "clustering", none, none⟩ : RBFModel).n_hidden) ∧
      ((⟨1, 1, 2, 1, "clustering", some [[4], [6]], none⟩ : RBFModel).epsilon =
        (⟨1, 1, 2, 1, "clustering", none, none⟩ : RBFModel).epsilon) :=
  ⟨(trainers_preserve_hyperparameters.2 ⟨1, 1, 2, 1, "clustering", none, none⟩
      [[5]] [[5]] [] (fun _ _ => [[4], [6]])
      (⟨1, 1, 2, 1, "clustering", some [[4], [6]], none⟩, [[4], [6]])
      (Or.inr (Or.inl rfl)) rfl).2.2.1,
    (trainers_preserve_hyperparameters.2 ⟨1, 1, 2, 1, "clustering", none, none⟩
      [[5]] [[5]] [] (fun _ _ => [[4], [6]])
      (⟨1, 1, 2, 1, "clustering", some [[4], [6]], none⟩, [[4], [6]])
      (Or.inr (Or.inl rfl)) rfl).2.2.2.1⟩

/-- C5: for every batch, the backward pass computes the gradients exactly
as delta2 = Yhat - Y, dJ/dW2 = delta2 * A1^T, delta1 = the bias row (row
0) dropped from W2^T * delta2 multiplied entrywise with the sigmoid
derivative evaluated at the pre-activation Z1 = W1 * A0 cached by the
forward pass (not at the post-activation A1, which is the bias-extended
sigmoid of Z1), and dJ/dW1 = delta1 * A0^T. -/
theorem MLP_backprop_formulas {B D H O : ℕ}
    (P : Matrix (Fin B) (Fin D) ℝ) (W1 : Matrix (Fin H) (Fin (D + 1)) ℝ)
    (W2 : Matrix (Fin O) (Fin (H + 1)) ℝ) (Y : Matrix (Fin O) (Fin B) ℝ) :
    (MLP_MSELIN_forward P W1 W2).2.2.2 = W1 * (MLP_MSELIN_forward P W1 W2).2.2.1 ∧
      (MLP_MSELIN_forward P W1 W2).2.1 =
        Matrix.of (Fin.cons (fun _ => 1)
          ((W1 * (MLP_MSELIN_forward P W1 W2).2.2.1).map MLP_sigmoid)) ∧
      (MLP_MSELIN_backprop (MLP_MSELIN_forward P W1 W2).1
          (MLP_MSELIN_forward P W1 W2).2.1 (MLP_MSELIN_forward P W1 W2).2.2.1
          (MLP_MSELIN_forward P W1 W2).2.2.2 Y W1 W2).2 =
        ((MLP_MSELIN_forward P W1 W2).1 - Y) *
          ((MLP_MSELIN_forward P W1 W2).2.1).transpose ∧
      (MLP_MSELIN_backprop (MLP_MSELIN_forward P W1 W2).1
          (MLP_MSELIN_forward P W1 W2).2.1 (MLP_MSELIN_forward P W1 W2).2.2.1
          (MLP_MSELIN_forward P W1 W2).2.2.2 Y W1 W2).1 =
        (Matrix.of (fun i j =>
            (W2.transpose * ((MLP_MSELIN_forward P W1 W2).1 - Y)) i.succ j *
              MLP_sigmoid_derivative
                ((W1 * (MLP_MSELIN_forward P W1 W2).2.2.1) i j))) *
          ((MLP_MSELIN_forward P W1 W2).2.2.1).transpose := by
  exact ⟨rfl, rfl, rfl, rfl⟩

/-- Helper: the bias-extended hidden activation matrix computed by
RBF_forward is the transpose of the spec-side design matrix RBF_Hext;
the square root taken to form the distances cancels against the square
inside the Gaussian. -/
theorem RBF_forward_A1_eq {N D H : ℕ}
    (X : Matrix (Fin N) (Fin D) ℝ) (W1 : Matrix (Fin H) (Fin D) ℝ)
    (W2 : Matrix (Fin 1) (Fin (H + 1)) ℝ) (epsilon : ℝ) :
    (RBF_forward X W1 W2 epsilon).2 = (RBF_Hext X W1 epsilon).transpose := by
  ext i j
  refine Fin.cases ?_ ?_ i
  · simp [RBF_forward, RBF_extend, RBF_Hext]
  · intro i2
    simp only [RBF_forward, RBF_extend, RBF_Hext, Matrix.transpose_apply,
      Matrix.of_apply, Fin.cons_succ, Fin.cases_succ]
    have hsum : (∑ k, (W1 i2 k - X j k) ^ 2) = ∑ k, (X j k - W1 i2 k) ^ 2 :=
      Finset.sum_congr rfl (fun k _ => by ring)
    rw [Real.sq_sqrt (Finset.sum_nonneg (fun k _ => sq_nonneg _)), hsum]

/-- Helper: the offline weight solve is one call of the external solver
on the spec-side design matrix. -/
theorem RBF_train_offline_solve_eq {N D H : ℕ}
    (lstsq : Matrix (Fin N) (Fin (H + 1)) ℝ → (Fin N → ℝ) → (Fin (H + 1) → ℝ))
    (X : Matrix (Fin N) (Fin D) ℝ) (W1 : Matrix (Fin H) (Fin D) ℝ)
    (epsilon : ℝ) (y : Fin N → ℝ) :
    RBF_train_offline_solve lstsq X W1 epsilon y =
      Matrix.of (fun _ i => lstsq (RBF_Hext X W1 epsilon) y i) := by
  show Matrix.of (fun _ i =>
      lstsq ((RBF_forward X W1 (Matrix.of (fun _ _ => 1)) epsilon).2).transpose y i) = _
  rw [RBF_forward_A1_eq, Matrix.transpose_transpose]

/-- C7: RBF output-weight training is a single closed-form solve: the
weights returned are exactly one application of the external least-squares
solver (np.linalg.lstsq, with np.linalg.pinv in the 2D variant; both
pseudo-inverse based, not an explicit normal-equation inversion) to the
extended design matrix whose row j is a leading bias 1 followed by
exp (-(epsilon^2 * squared Euclidean distance of pattern j to center i)),
with no learning rate and no iteration anywhere. -/
theorem RBF_train_offline_single_solve {N D H : ℕ}
    (lstsq : Matrix (Fin N) (Fin (H + 1)) ℝ → (Fin N → ℝ) → (Fin (H + 1) → ℝ))
    (X : Matrix (Fin N) (Fin D) ℝ) (W1 : Matrix (Fin H) (Fin D) ℝ)
    (epsilon : ℝ) (y : Fin N → ℝ) :
    RBF_train_offline_solve lstsq X W1 epsilon y =
      Matrix.of (fun _ i => lstsq (RBF_Hext X W1 epsilon) y i) ∧
      (∀ j, RBF_Hext X W1 epsilon j 0 = 1) ∧
      (∀ (j : Fin N) (i : Fin H), RBF_Hext X W1 epsilon j i.succ =
        Real.exp (-(epsilon ^ 2 * ∑ k, (X j k - W1 i k) ^ 2))) := by
  refine ⟨RBF_train_offline_solve_eq lstsq X W1 epsilon y, ?_, ?_⟩
  · intro j
    simp [RBF_Hext]
  · intro j i
    simp [RBF_Hext]

/-- C9: round trip.  Applying RBF_predict to the training inputs with the
stored centers, the same width and the solved weights reproduces the
training-time fitted values H_ext * W2 (first conjunct), because the
prediction-time recomputation of the Gaussian activations is exactly the
training-time activation matrix, which does not depend on the dummy
output weights used during training (second conjunct). -/
theorem RBF_predict_round_trip {N D H : ℕ}
    (lstsq : Matrix (Fin N) (Fin (H + 1)) ℝ → (Fin N → ℝ) → (Fin (H + 1) → ℝ))
    (X : Matrix (Fin N) (Fin D) ℝ) (W1 : Matrix (Fin H) (Fin D) ℝ)
    (epsilon : ℝ) (y : Fin N → ℝ) :
    RBF_predict X W1 (RBF_train_offline_solve lstsq X W1 epsilon y) epsilon =
      Matrix.of (fun _ j => ∑ i, RBF_Hext X W1 epsilon j i *
        lstsq (RBF_Hext X W1 epsilon) y i) ∧
      (RBF_forward X W1 (RBF_train_offline_solve lstsq X W1 epsilon y) epsilon).2 =
        (RBF_forward X W1 (Matrix.of (fun _ _ => 1)) epsilon).2 := by
  constructor
  · have h1 : RBF_predict X W1 (RBF_train_offline_solve lstsq X W1 epsilon y) epsilon =
        RBF_train_offline_solve lstsq X W1 epsilon y *
          (RBF_forward X W1 (RBF_train_offline_solve lstsq X W1 epsilon y) epsilon).2 :=
      rfl
    rw [h1, RBF_forward_A1_eq, RBF_train_offline_solve_eq]
    ext o j
    simp [Matrix.mul_apply, mul_comm]
  · rw [RBF_forward_A1_eq, RBF_forward_A1_eq]

/-- Helper: a heap write at one address does not change reads at another. -/
theorem heapRead_write_ne (h : Heap) (a b : ℕ) (v : NpArr) (hne : a ≠ b) :
    heapRead (heapWrite h b v) a = heapRead h a := by
  simp [heapRead, heapWrite, List.getD_eq_getElem?_getD,
    List.getElem?_set_ne (Ne.symm hne)]

/-- Helper: allocations at the end of the heap do not change reads of
existing addresses. -/
theorem heapRead_append (h t : Heap) (a : ℕ) (ha : a < h.length) :
    heapRead (h ++ t) a = heapRead h a := by
  simp [heapRead, List.getD_eq_getElem?_getD, List.getElem?_append_left ha]

/-- Helper: the epoch loop of the heap-level LLS trainer only ever writes
the history address aE. -/
theorem LLS_epochs_heap_frame (eta : ℝ) (aX aY aE N T : ℕ) :
    ∀ (k : ℕ) (h : Heap) (wb : List ℝ × ℝ) (a : ℕ), a ≠ aE →
      heapRead (LLS_epochs_heap eta aX aY aE N T k h wb).1 a = heapRead h a := by
  intro k
  induction k with
  | zero => intro h wb a ha; simp [LLS_epochs_heap]
  | succ n ih =>
    intro h wb a ha
    simp only [LLS_epochs_heap]
    rw [ih _ _ a ha, heapRead_write_ne _ _ _ _ ha]

/-- C10: no trainer mutates the data arrays of the caller.  In the heap model
of the numpy store, LLS_by_GD leaves the contents at the addresses of X
and y unchanged (its only in-place store targets the history array it
allocates itself), and the MLP trainer and the RBF offline trainer leave
the whole heap unchanged (they perform no in-place numpy store at all:
epoch shuffling uses fancy indexing, which copies). -/
theorem trainers_do_not_mutate_caller_arrays :
    (∀ (h0 : Heap) (aX aY : ℕ) (eta : ℝ) (T : ℕ),
        aX < h0.length → aY < h0.length →
        heapRead (LLS_by_GD_heap h0 aX aY eta T).1 aX = heapRead h0 aX ∧
          heapRead (LLS_by_GD_heap h0 aX aY eta T).1 aY = heapRead h0 aY) ∧
      (∀ (h : Heap) (aP aY : ℕ) (model : MLPModel) (iW1 iW2 : List (List ℝ))
          (perms : ℕ → List ℕ),
        (MLP_MSELIN_train_heap h aP aY model iW1 iW2 perms).1 = h) ∧
      (∀ (h : Heap) (aX aY : ℕ) (W1 : List (List ℝ)) (epsilon : ℝ)
          (lstsqL : List (List ℝ) → List ℝ → List ℝ),
        (RBF_train_offline_heap h aX aY W1 epsilon lstsqL).1 = h) := by
  refine ⟨?_, ?_, ?_⟩
  · intro h0 aX aY eta T hX hY
    constructor
    · show heapRead (LLS_epochs_heap eta aX aY (h0.length) _ T T
          (h0 ++ [[List.replicate T 0]]) _).1 aX = heapRead h0 aX
      rw [LLS_epochs_heap_frame eta aX aY h0.length _ T T _ _ aX (Nat.ne_of_lt hX),
        heapRead_append _ _ _ hX]
    · show heapRead (LLS_epochs_heap eta aX aY (h0.length) _ T T
          (h0 ++ [[List.replicate T 0]]) _).1 aY = heapRead h0 aY
      rw [LLS_epochs_heap_frame eta aX aY h0.length _ T T _ _ aY (Nat.ne_of_lt hY),
        heapRead_append _ _ _ hY]
  · intro h aP aY model iW1 iW2 perms
    rfl
  · intro h aX aY W1 epsilon lstsqL
    rfl

/-- Witness for C10 at a concrete two-array heap. -/
theorem trainers_do_not_mutate_caller_arrays_witness :
    heapRead (LLS_by_GD_heap [[[1]], [[2]]] 0 1 1 3).1 0 =
        heapRead [[[1]], [[2]]] 0 ∧
      heapRead (LLS_by_GD_heap [[[1]], [[2]]] 0 1 1 3).1 1 =
        heapRead [[[1]], [[2]]] 1 :=
  ⟨(trainers_do_not_mutate_caller_arrays.1 [[[1]], [[2]]] 0 1 1 3
      (by decide) (by decide)).1,
    (trainers_do_not_mutate_caller_arrays.1 [[[1]], [[2]]] 0 1 1 3
      (by decide) (by decide)).2⟩

/-- Helper: np.array_split always produces exactly m part sizes when m is
positive. -/
theorem arraySplitSizes_length (n m : ℕ) (hm : 1 ≤ m) :
    (arraySplitSizes n m).length = m := by
  have h := Nat.mod_lt n (show 0 < m from hm)
  simp [arraySplitSizes]
  omega

/-- Helper: the numpy part sizes add up to the array length. -/
theorem arraySplitSizes_sum (n m : ℕ) (hm : 1 ≤ m) :
    (arraySplitSizes n m).sum = n := by
  simp only [arraySplitSizes, List.sum_append, List.sum_replicate, smul_eq_mul]
  have hle : n % m ≤ m := Nat.le_of_lt (Nat.mod_lt n hm)
  have h1 : n % m * (n / m + 1) = n % m * (n / m) + n % m := by ring
  have h2 : (m - n % m) * (n / m) + n % m * (n / m) = m * (n / m) := by
    rw [← Nat.add_mul, Nat.sub_add_cancel hle]
  have h3 : m * (n / m) + n % m = n := Nat.div_add_mod n m
  omega

/-- Helper: every numpy part size is n / m or n / m + 1, so the chunk
sizes are as equal as an m-way split allows. -/
theorem arraySplitSizes_balanced (n m : ℕ) :
    ∀ s ∈ arraySplitSizes n m, s = n / m ∨ s = n / m + 1 := by
  intro s hs
  simp only [arraySplitSizes, List.mem_append, List.mem_replicate] at hs
  rcases hs with h | h
  · exact Or.inr h.2
  · exact Or.inl h.2

/-- Helper: cutting by sizes yields one chunk per size. -/
theorem splitBySizes_length {α : Type} :
    ∀ (ss : List ℕ) (xs : List α), (splitBySizes ss xs).length = ss.length := by
  intro ss
  induction ss with
  | nil => intro xs; simp [splitBySizes]
  | cons s st ih => intro xs; simp [splitBySizes, ih]

/-- Helper: when the sizes fit inside the list, the chunk lengths are
exactly the requested sizes. -/
theorem splitBySizes_map_length {α : Type} :
    ∀ (ss : List ℕ) (xs : List α), ss.sum ≤ xs.length →
      (splitBySizes ss xs).map List.length = ss := by
  intro ss
  induction ss with
  | nil => intro xs hs; simp [splitBySizes]
  | cons s st ih =>
    intro xs hs
    simp only [List.sum_cons] at hs
    have hsx : s ≤ xs.length := by omega
    have hrest : st.sum ≤ (xs.drop s).length := by
      simp [List.length_drop]
      omega
    simp [splitBySizes, ih (xs.drop s) hrest, List.length_take, Nat.min_eq_left hsx]

/-- Helper: when the sizes cover the list, concatenating the chunks gives
back the list. -/
theorem splitBySizes_join {α : Type} :
    ∀ (ss : List ℕ) (xs : List α), xs.length ≤ ss.sum →
      (splitBySizes ss xs).join = xs := by
  intro ss
  induction ss with
  | nil =>
    intro xs hs
    simp at hs
    subst hs
    simp [splitBySizes]
  | cons s st ih =>
    intro xs hs
    simp only [List.sum_cons] at hs
    have hrest : (xs.drop s).length ≤ st.sum := by
      simp [List.length_drop]
      omega
    simp [splitBySizes, List.join, ih (xs.drop s) hrest]

/-- Helper: each minibatch step appends exactly one cost entry. -/
theorem MLP_minibatchStep_hist (eta : ℝ) (P y : List (List ℝ))
    (st : List ℝ × List (List ℝ) × List (List ℝ)) (idx : List ℕ) :
    (MLP_minibatchStep eta P y st idx).1.length = st.1.length + 1 := by
  simp [MLP_minibatchStep]

/-- Helper: folding the minibatch step over the chunk list appends one
cost entry per chunk. -/
theorem MLP_minibatch_fold_hist (eta : ℝ) (P y : List (List ℝ)) :
    ∀ (chunks : List (List ℕ)) (st : List ℝ × List (List ℝ) × List (List ℝ)),
      (chunks.foldl (MLP_minibatchStep eta P y) st).1.length =
        st.1.length + chunks.length := by
  intro chunks
  induction chunks with
  | nil => intro st; simp
  | cons c cs ih =>
    intro st
    simp only [List.foldl_cons, ih, MLP_minibatchStep_hist, List.length_cons]
    omega

/-- Helper: the epoch loop appends (number of chunks) cost entries per
epoch. -/
theorem MLP_trainLoop_hist (eta : ℝ) (M : ℕ) (P y : List (List ℝ))
    (perms : ℕ → List ℕ) :
    ∀ (k e : ℕ) (st : List ℝ × List (List ℝ) × List (List ℝ)),
      (MLP_trainLoop eta M P y perms k e st).1.length =
        st.1.length + k * (arraySplit (List.range P.length) M).length := by
  intro k
  induction k with
  | zero => intro e st; simp [MLP_trainLoop]
  | succ n ih =>
    intro e st
    simp only [MLP_trainLoop, ih, MLP_epoch, MLP_minibatch_fold_hist]
    ring

/-- Counterexample to C8: the mini-batch sizes are not "all equal except a
smaller last batch".  For N = 7 and minibatches = 3, np.array_split
produces sizes [3, 2, 2]: the second batch is already smaller than the
first although it is not the last batch, so the claimed shape (only the
last batch smaller) is wrong. -/
theorem arraySplit_not_only_last_smaller :
    (arraySplit (List.range 7) 3).map List.length = [3, 2, 2] ∧
      ((arraySplit (List.range 7) 3).map List.length).getD 1 0 ≠
        ((arraySplit (List.range 7) 3).map List.length).getD 0 0 := by
  decide

/-- C8 (amended): every MLP training run with 1 ≤ minibatches ≤ N splits
the index range of each epoch into exactly minibatches-many contiguous chunks
whose concatenation is the full index range in order; the chunk sizes are
as equal as the split allows (each is N/M or N/M + 1, with the larger
chunks coming first: the first N mod M chunks get the extra element), one
cost entry is appended per (epoch, minibatch) pair, and any such run -
including the boundary settings minibatches = N and minibatches = 1 -
produces a cost history of length epochs * minibatches. -/
theorem MLP_train_minibatch_split :
    ∀ (P y : List (List ℝ)) (model : MLPModel) (iW1 iW2 : List (List ℝ))
      (perms : ℕ → List ℕ),
      1 ≤ model.minibatches → model.minibatches ≤ P.length →
      ((MLP_MSELIN_train P y model iW1 iW2 perms).1.cost_history.getD []).length =
          model.epochs * model.minibatches ∧
        (arraySplit (List.range P.length) model.minibatches).length =
          model.minibatches ∧
        (arraySplit (List.range P.length) model.minibatches).map List.length =
          arraySplitSizes P.length model.minibatches ∧
        (arraySplit (List.range P.length) model.minibatches).join =
          List.range P.length ∧
        (∀ s ∈ arraySplitSizes P.length model.minibatches,
          s = P.length / model.minibatches ∨
            s = P.length / model.minibatches + 1) := by
  intro P y model iW1 iW2 perms hm hmn
  have hslen : (arraySplitSizes P.length model.minibatches).length =
      model.minibatches := arraySplitSizes_length _ _ hm
  have hssum : (arraySplitSizes P.length model.minibatches).sum = P.length :=
    arraySplitSizes_sum _ _ hm
  have hchunks : (arraySplit (List.range P.length) model.minibatches).length =
      model.minibatches := by
    rw [arraySplit, splitBySizes_length, List.length_range]
    exact hslen
  refine ⟨?_, hchunks, ?_, ?_, arraySplitSizes_balanced _ _⟩
  · show (MLP_trainLoop model.eta model.minibatches P y perms model.epochs 1
        ([], iW1, iW2)).1.length = model.epochs * model.minibatches
    rw [MLP_trainLoop_hist, hchunks]
    simp
  · rw [arraySplit, List.length_range]
    exact splitBySizes_map_length _ _ (by simp [hssum])
  · rw [arraySplit, List.length_range]
    exact splitBySizes_join _ _ (by simp [hssum])

/-- Witness for C8 at the two boundary settings minibatches = 1 and
minibatches = N on a two-row training set. -/
theorem MLP_train_minibatch_split_witness :
    ((MLP_MSELIN_train [[1], [2]] [[1], [2]]
          ⟨1, 1, 1, 5, 1, 1, none, none, none⟩ [[0, 0]] [[0, 0]]
          (fun _ => [0, 1])).1.cost_history.getD []).length = 5 * 1 ∧
      ((MLP_MSELIN_train [[1], [2]] [[1], [2]]
          ⟨1, 1, 1, 5, 1, 2, none, none, none⟩ [[0, 0]] [[0, 0]]
          (fun _ => [0, 1])).1.cost_history.getD []).length = 5 * 2 :=
  ⟨(MLP_train_minibatch_split [[1], [2]] [[1], [2]]
      ⟨1, 1, 1, 5, 1, 1, none, none, none⟩ [[0, 0]] [[0, 0]]
      (fun _ => [0, 1]) (by decide) (by decide)).1,
    (MLP_train_minibatch_split [[1], [2]] [[1], [2]]
      ⟨1, 1, 1, 5, 1, 2, none, none, none⟩ [[0, 0]] [[0, 0]]
      (fun _ => [0, 1]) (by decide) (by decide)).1⟩

/-- C6: the scalar gradient-descent minimizer returns the T+1 iterates
x_0 = x0, x_(k+1) = x_k - eta * grad x_k together with the corresponding
polynomial values, always running exactly T steps with no convergence
check (T = 0 yields only the initial point), and in particular with
pol x = x^2, grad x = 2x, x0 = 10, eta = 1/10, T = 1 the iterate history
is [10, 8], so x_1 = 8. -/
theorem minimization_using_GD_spec :
    (∀ (pol grad : ℚ → ℚ) (x0 eta : ℚ) (T : ℕ),
        (minimization_using_GD pol x0 grad eta T).1 =
          (List.range (T + 1)).map (gdIter grad eta x0) ∧
        (minimization_using_GD pol x0 grad eta T).2 =
          (List.range (T + 1)).map (fun k => pol (gdIter grad eta x0 k)) ∧
        (minimization_using_GD pol x0 grad eta T).1.length = T + 1 ∧
        (minimization_using_GD pol x0 grad eta T).2.length = T + 1) ∧
      (minimization_using_GD (fun x => x ^ 2) 10 (fun x => 2 * x) (1 / 10) 1).1 =
        [10, 8] := by
  constructor
  · intro pol grad x0 eta T
    have h := minGDloop_eq pol grad eta T x0 [x0] [pol x0]
    have h1 : (minimization_using_GD pol x0 grad eta T).1 =
        [x0] ++ (List.range T).map (fun j => gdIter grad eta x0 (j + 1)) := by
      simp [minimization_using_GD, h]
    have h2 : (minimization_using_GD pol x0 grad eta T).2 =
        [pol x0] ++ (List.range T).map (fun j => pol (gdIter grad eta x0 (j + 1))) := by
      simp [minimization_using_GD, h]
    have hr : List.range (T + 1) = 0 :: (List.range T).map (· + 1) := by
      rw [List.range_succ_eq_map]
      try simp [Function.comp]
    refine ⟨?_, ?_, ?_, ?_⟩
    · rw [h1, hr]; simp [gdIter, Function.comp]
    · rw [h2, hr]; simp [gdIter, Function.comp]
    · rw [h1]; simp
    · rw [h2]; simp
  · norm_num [minimization_using_GD, minGDloop]

end CIDL
